import Mathlib

/-!
# Verification of the invoice memory-automation decision pipeline

Shallow embedding of the confidence-weighted decision pipeline of the
invoice memory-automation repository (TypeScript sources under `src/`):
the Recall engine's overall-confidence computation, the Decision engine's
safety constraints and action selection, the Apply engine's
string-similarity matching and high-confidence correction application,
the Learning engine's feedback reinforcement and idempotency guard, the
MemoryStore's correction-feedback update, and the Output engine's
contract validation and error fallback.

Modelling conventions:
* JavaScript numbers are modelled as rationals (`ℚ`); the one place the
  code can produce `NaN` (the `0/0` in `calculateMemoryInsights`,
  coerced back to `0` by `|| 0`) is modelled by the explicit
  zero-denominator case of `jsDiv`.
* JavaScript dynamic (`any`) field values are modelled by `JsVal`
  (number / string / NaN / null).  `typeof v === 'number'` is true for
  `NaN`, which `JsVal.isNumber` reflects.
* Strings are Lean `String`s; decimal formatting of numbers inside
  human-readable reasoning strings is abstracted by `fmtQ` (only
  non-emptiness of those strings is ever relied upon).
* `Date` timestamps are epoch milliseconds (`ℤ`); `toISOString` is
  abstracted to an injective rendering `isoString`, and the JS
  `new Date(s)` validity check to parseability of that rendering.
* `Date.now()` and the random id suffixes are modelled by an explicit
  `now : ℤ` parameter threaded through the operations that use them.
-/

namespace InvoiceMemory

/-- A JavaScript dynamic value (the `any`-typed raw/corrected field
values).  `nan` is a number for `typeof` purposes; `null` covers
`null`/`undefined`. -/
inductive JsVal where
  | num (q : ℚ)
  | str (s : String)
  | nan
  | null
  deriving Repr, DecidableEq

namespace JsVal

/-- `typeof v === 'number'` (true for `NaN` as well). -/
def isNumber : JsVal → Bool
  | num _ => true
  | nan => true
  | _ => false

end JsVal

/-- Integer decimal numeral parser used to model `Number(string)` on the
plain numerals occurring in this development; all other strings coerce
to `NaN` (a conservative under-approximation of JS numeric coercion —
no verified claim depends on string-to-number coercion). -/
def jsStringToNumber (s : String) : JsVal :=
  if s.length > 0 && s.all Char.isDigit then
    JsVal.num ((s.foldl (fun n c => n * 10 + (c.toNat - 48)) 0 : ℕ) : ℚ)
  else JsVal.nan

/-- JS `Number(v)` coercion into the `JsVal` number domain. -/
def jsNumber : JsVal → JsVal
  | JsVal.num q => JsVal.num q
  | JsVal.str s => jsStringToNumber s
  | JsVal.nan => JsVal.nan
  | JsVal.null => JsVal.num 0

/-- Abstract decimal rendering of a rational (stands in for JS number
formatting such as `toFixed`; always non-empty, which is the only
property the verification relies on). -/
def fmtQ (q : ℚ) : String :=
  if q.den = 1 then toString q.num else toString q.num ++ "/" ++ toString q.den

/-- JS `String(v)` coercion. -/
def jsString : JsVal → String
  | JsVal.num q => fmtQ q
  | JsVal.str s => s
  | JsVal.nan => "NaN"
  | JsVal.null => "null"

/-- `Date` rendering `toISOString()`, abstracted to an injective
encoding of the epoch-millisecond value. -/
def isoString (t : ℤ) : String := toString t

/-- Validity check `!isNaN(new Date(ts).getTime())` for timestamp
strings, matched to the `isoString` encoding: a string is a valid
timestamp iff it parses back to an integer. -/
def jsDateValid (s : String) : Bool := (s.toInt?).isSome

/- ===================== Data model (src/src/interfaces) ===================== -/

/-- `NormalizationRule` (interfaces/Memory.ts). -/
structure NormalizationRule where
  fieldName : String
  pattern : String
  replacement : String
  confidenceScore : ℚ
  deriving Repr, DecidableEq

/-- `VendorMemory` (interfaces/Memory.ts). -/
structure VendorMemory where
  id : String
  vendorName : String
  fieldMappings : List (String × String)
  normalizationRules : List NormalizationRule
  confidenceScore : ℚ
  usageCount : ℕ
  lastUsed : ℤ
  createdAt : ℤ
  deriving Repr, DecidableEq

/-- `CorrectionMemory` (interfaces/Memory.ts). -/
structure CorrectionMemory where
  id : String
  originalValue : String
  correctedValue : String
  fieldName : String
  vendorName : Option String
  confidenceScore : ℚ
  approvalCount : ℕ
  rejectionCount : ℕ
  createdAt : ℤ
  deriving Repr, DecidableEq

/-- `ResolutionMemory` decision field values. -/
inductive DecisionType where
  | autoAccept
  | autoCorrect
  | humanReview
  deriving Repr, DecidableEq

/-- `ResolutionMemory` (interfaces/Memory.ts). -/
structure ResolutionMemory where
  id : String
  invoicePattern : String
  decision : DecisionType
  confidenceScore : ℚ
  outcomeSuccess : Bool
  reasoning : String
  createdAt : ℤ
  deriving Repr, DecidableEq

/-- `AuditLog` (interfaces/Audit.ts); before/after snapshots are kept as
their JSON renderings. -/
structure AuditLog where
  id : String
  operation : String
  entityType : String
  entityId : String
  beforeState : Option String := none
  afterState : Option String := none
  reasoning : String
  confidenceScore : Option ℚ := none
  timestamp : ℤ
  deriving Repr, DecidableEq

/-- `Invoice` (interfaces/Invoice.ts); `lineItems` is kept as a count of
items since only `lineItems.length` is ever read by the pipeline. -/
structure Invoice where
  id : String
  vendorName : String
  invoiceNumber : String
  amount : JsVal
  date : JsVal
  lineItemCount : ℕ
  rawFields : List (String × JsVal)
  deriving Repr, DecidableEq

/-- `ProposedCorrection` (interfaces/Invoice.ts). -/
structure ProposedCorrection where
  field : String
  originalValue : JsVal
  correctedValue : JsVal
  confidence : ℚ
  memorySourceId : String
  reasoning : String
  deriving Repr, DecidableEq

/-- `MemoryInsights` (interfaces/Memory.ts). -/
structure MemoryInsights where
  vendorPatterns : List VendorMemory
  suggestedCorrections : List CorrectionMemory
  historicalResolutions : List ResolutionMemory
  overallConfidence : ℚ
  reasoning : List String
  deriving Repr, DecidableEq

/- ===================== RecallEngine.calculateOverallConfidence ===================== -/

/-- `RecallEngine.calculateOverallConfidence` (RecallEngine.ts:172-212).
Mirrors the three `reduce` accumulations: the vendor numerator folds
from seed `0`, the vendor denominator folds from seed `1` (the second
`reduce`'s initial value in the source), correction and resolution
sub-confidences are simple means, the weights 0.5/0.3/0.2 accumulate
into `totalWeight` only for non-empty lists, and the result is
`min(1.0, weightedSum / totalWeight)` with floor `0.1` when no memory
is available. -/
def calculateOverallConfidence (vendorPatterns : List VendorMemory)
    (corrections : List CorrectionMemory)
    (resolutions : List ResolutionMemory) : ℚ :=
  let step1 :=
    if vendorPatterns.length > 0 then
      let vendorConfidence :=
        (vendorPatterns.foldl (fun sum p => sum + p.confidenceScore * (p.usageCount : ℚ)) 0) /
        (vendorPatterns.foldl (fun sum p => sum + (p.usageCount : ℚ)) 1)
      (vendorConfidence * (1/2), (1/2 : ℚ))
    else (0, 0)
  let step2 :=
    if corrections.length > 0 then
      let correctionConfidence :=
        (corrections.foldl (fun sum c => sum + c.confidenceScore) 0) / (corrections.length : ℚ)
      (step1.1 + correctionConfidence * (3/10), step1.2 + 3/10)
    else step1
  let step3 :=
    if resolutions.length > 0 then
      let resolutionConfidence :=
        (resolutions.foldl (fun sum r => sum + r.confidenceScore) 0) / (resolutions.length : ℚ)
      (step2.1 + resolutionConfidence * (1/5), step2.2 + 1/5)
    else step2
  if step3.2 > 0 then min 1 (step3.1 / step3.2) else 1/10

/-- The overall-confidence formula exactly as claim C2 words it
("spec-side" definition for the refinement comparison): the vendor
sub-confidence is the usage-weighted mean `Σ cᵢ·uᵢ / Σ uᵢ` of the
vendor patterns' confidences, corrections and resolutions contribute
their simple means, the weights 0.5/0.3/0.2 are renormalized over the
non-empty components, and the blend is clamped to at most 1. -/
def specOverallConfidenceC2 (vendorPatterns : List VendorMemory)
    (corrections : List CorrectionMemory)
    (resolutions : List ResolutionMemory) : ℚ :=
  let comps : List (ℚ × ℚ) :=
    (if vendorPatterns ≠ [] then
      [(((vendorPatterns.map (fun p => p.confidenceScore * (p.usageCount : ℚ))).sum /
         ((vendorPatterns.map (fun p => (p.usageCount : ℚ))).sum)), (1/2 : ℚ))]
     else []) ++
    (if corrections ≠ [] then
      [(((corrections.map (·.confidenceScore)).sum / (corrections.length : ℚ)), (3/10 : ℚ))]
     else []) ++
    (if resolutions ≠ [] then
      [(((resolutions.map (·.confidenceScore)).sum / (resolutions.length : ℚ)), (1/5 : ℚ))]
     else [])
  if comps = [] then 1/10
  else min 1 ((comps.map (fun c => c.1 * c.2)).sum / (comps.map (·.2)).sum)

/-- Claim C2 amended: same blend, but the vendor sub-confidence's
denominator is seeded at 1 (`reduce(..., 1)` in the source), i.e. it is
`Σ cᵢ·uᵢ / (1 + Σ uᵢ)`, not the usage-weighted mean. -/
def specOverallConfidenceC2Amended (vendorPatterns : List VendorMemory)
    (corrections : List CorrectionMemory)
    (resolutions : List ResolutionMemory) : ℚ :=
  let comps : List (ℚ × ℚ) :=
    (if vendorPatterns ≠ [] then
      [(((vendorPatterns.map (fun p => p.confidenceScore * (p.usageCount : ℚ))).sum /
         (1 + (vendorPatterns.map (fun p => (p.usageCount : ℚ))).sum)), (1/2 : ℚ))]
     else []) ++
    (if corrections ≠ [] then
      [(((corrections.map (·.confidenceScore)).sum / (corrections.length : ℚ)), (3/10 : ℚ))]
     else []) ++
    (if resolutions ≠ [] then
      [(((resolutions.map (·.confidenceScore)).sum / (resolutions.length : ℚ)), (1/5 : ℚ))]
     else [])
  if comps = [] then 1/10
  else min 1 ((comps.map (fun c => c.1 * c.2)).sum / (comps.map (·.2)).sum)

/-- Concrete vendor pattern exhibiting the C2 counterexample: full
confidence 1.0 with a single recorded usage. -/
def c2VendorPattern : VendorMemory :=
  { id := "vendor_1", vendorName := "Acme Corp", fieldMappings := [],
    normalizationRules := [], confidenceScore := 1, usageCount := 1,
    lastUsed := 0, createdAt := 0 }

/- ===================== DecisionEngine (ApplyEngine.ts, second module) ===================== -/

/-- The safety-constraint tags pushed onto the `constraints: string[]`
list by `DecisionEngine.applySafetyConstraints`, modelled as an
enumeration (each constructor stands for its source string, recovered
by `SafetyFlag.tag`). -/
inductive SafetyFlag where
  | lowConfidenceCorrectionsBlocked
  | tooManyCorrections
  | criticalFieldProtection
  | largeValueChange
  | overallLowConfidence
  | errorFallback
  deriving Repr, DecidableEq

/-- Source string of each safety-constraint tag. -/
def SafetyFlag.tag : SafetyFlag → String
  | .lowConfidenceCorrectionsBlocked => "low-confidence-corrections-blocked"
  | .tooManyCorrections => "too-many-corrections"
  | .criticalFieldProtection => "critical-field-protection"
  | .largeValueChange => "large-value-change"
  | .overallLowConfidence => "overall-low-confidence"
  | .errorFallback => "error-fallback"

/-- `DecisionThresholds` (ApplyEngine.ts:360-364). -/
structure DecisionThresholds where
  autoAccept : ℚ
  autoCorrect : ℚ
  humanReview : ℚ
  deriving Repr, DecidableEq

/-- The default thresholds installed by the `DecisionEngine`
constructor: auto-accept 0.85, auto-correct 0.65, human-review 0.65. -/
def defaultThresholds : DecisionThresholds :=
  { autoAccept := 17/20, autoCorrect := 13/20, humanReview := 13/20 }

/-- The critical-field list `['amount', 'vendorName', 'invoiceNumber']`
appearing in `applySafetyConstraints`, `determineAction` and
`filterCorrectionsForAction`. -/
def protectedFields : List String := ["amount", "vendorName", "invoiceNumber"]

/-- `ProcessingDecision['thresholdAnalysis']` (ApplyEngine.ts:350-357). -/
structure ThresholdAnalysis where
  autoAcceptThreshold : ℚ
  autoCorrectThreshold : ℚ
  humanReviewThreshold : ℚ
  actualConfidence : ℚ
  exceedsAutoAccept : Bool
  exceedsAutoCorrect : Bool
  deriving Repr, DecidableEq

/-- `DecisionEngine.evaluateConfidenceThresholds` (ApplyEngine.ts:449-458). -/
def evaluateConfidenceThresholds (t : DecisionThresholds) (confidenceScore : ℚ) :
    ThresholdAnalysis :=
  { autoAcceptThreshold := t.autoAccept
    autoCorrectThreshold := t.autoCorrect
    humanReviewThreshold := t.humanReview
    actualConfidence := confidenceScore
    exceedsAutoAccept := decide (confidenceScore ≥ t.autoAccept)
    exceedsAutoCorrect := decide (confidenceScore ≥ t.autoCorrect) }

/-- The large-value-change test of `applySafetyConstraints`
(ApplyEngine.ts:578-584): an `amount` correction whose numeric values
differ by more than 20 percent of the original.  `typeof x === 'number'`
holds for `NaN` too, but any `NaN` operand makes `changePercent` `NaN`
and `NaN > 0.2` is false; for `originalValue === 0` the JS quotient is
`Infinity` (flagged) unless the difference is also `0` (`NaN`, not
flagged). -/
def isLargeValueChange (c : ProposedCorrection) : Bool :=
  c.field = "amount" && c.originalValue.isNumber && c.correctedValue.isNumber &&
    match c.originalValue, c.correctedValue with
    | JsVal.num o, JsVal.num n =>
        if o = 0 then decide (n ≠ 0) else decide (|n - o| / o > 1/5)
    | _, _ => false

/-- `DecisionEngine.applySafetyConstraints` (ApplyEngine.ts:553-595):
the constraint tags, pushed in source order. -/
def applySafetyConstraints (t : DecisionThresholds)
    (proposedCorrections : List ProposedCorrection) (confidenceScore : ℚ) :
    List SafetyFlag :=
  (if (proposedCorrections.filter (fun c => decide (c.confidence < t.autoCorrect))).length > 0
   then [SafetyFlag.lowConfidenceCorrectionsBlocked] else []) ++
  (if (proposedCorrections.filter (fun c => decide (c.confidence ≥ t.autoAccept))).length > 5
   then [SafetyFlag.tooManyCorrections] else []) ++
  (if (proposedCorrections.filter
        (fun c => decide (c.field ∈ protectedFields) && decide (c.confidence < t.autoAccept))).length > 0
   then [SafetyFlag.criticalFieldProtection] else []) ++
  (if (proposedCorrections.filter isLargeValueChange).length > 0
   then [SafetyFlag.largeValueChange] else []) ++
  (if confidenceScore < t.humanReview then [SafetyFlag.overallLowConfidence] else [])

/-- The `blockingConstraints` list of `determineAction`
(ApplyEngine.ts:606-612). -/
def blockingConstraints : List SafetyFlag :=
  [SafetyFlag.tooManyCorrections, SafetyFlag.criticalFieldProtection,
   SafetyFlag.largeValueChange, SafetyFlag.overallLowConfidence,
   SafetyFlag.errorFallback]

/-- `DecisionEngine.determineAction` (ApplyEngine.ts:600-637). -/
def determineAction (t : DecisionThresholds) (thresholdAnalysis : ThresholdAnalysis)
    (safetyConstraints : List SafetyFlag)
    (proposedCorrections : List ProposedCorrection) : DecisionType :=
  if safetyConstraints.any (fun c => decide (c ∈ blockingConstraints)) then
    DecisionType.humanReview
  else if thresholdAnalysis.exceedsAutoAccept &&
      (proposedCorrections.length == 0 ||
        (proposedCorrections.filter (fun c =>
          decide (c.confidence ≥ t.autoAccept) && !(decide (c.field ∈ protectedFields)))).length > 0) then
    DecisionType.autoAccept
  else if thresholdAnalysis.exceedsAutoCorrect then
    DecisionType.autoCorrect
  else
    DecisionType.humanReview

/-- `DecisionEngine.filterCorrectionsForAction` (ApplyEngine.ts:642-669). -/
def filterCorrectionsForAction (t : DecisionThresholds) (action : DecisionType)
    (proposedCorrections : List ProposedCorrection)
    (safetyConstraints : List SafetyFlag) : List ProposedCorrection :=
  match action with
  | DecisionType.autoAccept =>
      proposedCorrections.filter (fun c =>
        decide (c.confidence ≥ t.autoAccept) &&
        !(decide (c.field ∈ protectedFields)) &&
        !(decide (SafetyFlag.lowConfidenceCorrectionsBlocked ∈ safetyConstraints)))
  | DecisionType.autoCorrect =>
      proposedCorrections.filter (fun c =>
        decide (c.confidence ≥ t.autoCorrect) &&
        !(decide (SafetyFlag.criticalFieldProtection ∈ safetyConstraints)) &&
        !(decide (SafetyFlag.largeValueChange ∈ safetyConstraints)))
  | DecisionType.humanReview => []

/-- JS `Set`-style insertion (insertion-ordered, duplicates ignored). -/
def insertUnique (l : List String) (x : String) : List String :=
  if x ∈ l then l else l ++ [x]

/-- `DecisionEngine.extractMemorySourceIds` (ApplyEngine.ts:674-690). -/
def extractMemorySourceIds (insights : MemoryInsights)
    (corrections : List ProposedCorrection) : List String :=
  let s0 := insights.vendorPatterns.foldl (fun acc p => insertUnique acc p.id) []
  let s1 := insights.suggestedCorrections.foldl (fun acc c => insertUnique acc c.id) s0
  let s2 := insights.historicalResolutions.foldl (fun acc r => insertUnique acc r.id) s1
  corrections.foldl (fun acc c => insertUnique acc c.memorySourceId) s2

/-- Lower-case action tag ('auto-accept' / 'auto-correct' / 'human-review'). -/
def DecisionType.tag : DecisionType → String
  | DecisionType.autoAccept => "auto-accept"
  | DecisionType.autoCorrect => "auto-correct"
  | DecisionType.humanReview => "human-review"

/-- `DecisionEngine.generateExplanation` (ApplyEngine.ts:464-547):
the deterministic multi-part reasoning string (decimal formatting of
percentages abstracted by `fmtQ`). -/
def generateExplanation (t : DecisionThresholds) (action : DecisionType)
    (confidenceScore : ℚ) (thresholdAnalysis : ThresholdAnalysis)
    (safetyConstraints : List SafetyFlag)
    (appliedCorrections : List ProposedCorrection)
    (insights : MemoryInsights)
    (proposedCorrections : List ProposedCorrection) : String :=
  let parts : List String :=
    [s!"Confidence Analysis: Overall confidence score is {fmtQ confidenceScore} percent " ++
       s!"(Auto-accept: at least {fmtQ thresholdAnalysis.autoAcceptThreshold}, " ++
       s!"Auto-correct: at least {fmtQ thresholdAnalysis.autoCorrectThreshold}, " ++
       s!"Human review: below {fmtQ thresholdAnalysis.humanReviewThreshold})"] ++
    [s!"Memory Insights: Found {insights.vendorPatterns.length} vendor pattern(s), " ++
       s!"{insights.suggestedCorrections.length} correction suggestion(s), " ++
       s!"{insights.historicalResolutions.length} historical resolution(s)"] ++
    [if thresholdAnalysis.exceedsAutoAccept then
       s!"Exceeds auto-accept threshold ({fmtQ thresholdAnalysis.autoAcceptThreshold})"
     else if thresholdAnalysis.exceedsAutoCorrect then
       s!"Exceeds auto-correct threshold ({fmtQ thresholdAnalysis.autoCorrectThreshold})"
     else "Below auto-correct threshold, requires human review"] ++
    (if safetyConstraints.length > 0 then
       let tagsText := String.intercalate ", " (safetyConstraints.map SafetyFlag.tag)
       [s!"Safety Constraints Applied: {tagsText}"]
     else []) ++
    (if proposedCorrections.length > 0 then
       [s!"Corrections: {proposedCorrections.length} proposed " ++
          s!"({(proposedCorrections.filter (fun c => decide (c.confidence ≥ t.autoAccept))).length} high-confidence, " ++
          s!"{(proposedCorrections.filter (fun c => decide (c.confidence ≥ t.autoCorrect) && decide (c.confidence < t.autoAccept))).length} medium-confidence)"]
     else []) ++
    [match action with
     | DecisionType.autoAccept =>
         s!"Decision: AUTO-ACCEPT - High confidence ({fmtQ confidenceScore}) " ++
         s!"with {appliedCorrections.length} applied correction(s). Processing automatically."
     | DecisionType.autoCorrect =>
         s!"Decision: AUTO-CORRECT - Medium confidence ({fmtQ confidenceScore}) " ++
         s!"with {appliedCorrections.length} proposed correction(s). Corrections applied, human review recommended."
     | DecisionType.humanReview =>
         s!"Decision: HUMAN-REVIEW - Low confidence ({fmtQ confidenceScore}) " ++
         "or safety constraints require human oversight."] ++
    (if insights.reasoning.length > 0 then
       let reasonText := String.intercalate "; " insights.reasoning
       [s!"Memory Analysis: {reasonText}"]
     else [])
  String.intercalate " | " parts

/-- `ProcessingDecision` (ApplyEngine.ts:343-358); the safety-constraint
strings are carried as `SafetyFlag`s. -/
structure ProcessingDecision where
  action : DecisionType
  confidenceScore : ℚ
  reasoning : String
  appliedCorrections : List ProposedCorrection
  memorySourceIds : List String
  safetyConstraints : List SafetyFlag
  thresholdAnalysis : ThresholdAnalysis
  deriving Repr, DecidableEq

/-- `DecisionEngine.makeProcessingDecision` (ApplyEngine.ts:383-443).
The `catch` branch (error fallback) is unreachable in this pure model:
every step below is total, so the happy path is the whole function. -/
def makeProcessingDecision (t : DecisionThresholds) (_invoice : Invoice)
    (insights : MemoryInsights)
    (proposedCorrections : List ProposedCorrection) : ProcessingDecision :=
  let confidenceScore := insights.overallConfidence
  let memorySourceIds := extractMemorySourceIds insights proposedCorrections
  let thresholdAnalysis := evaluateConfidenceThresholds t confidenceScore
  let safetyConstraints := applySafetyConstraints t proposedCorrections confidenceScore
  let action := determineAction t thresholdAnalysis safetyConstraints proposedCorrections
  let appliedCorrections := filterCorrectionsForAction t action proposedCorrections safetyConstraints
  let reasoning := generateExplanation t action confidenceScore thresholdAnalysis
    safetyConstraints appliedCorrections insights proposedCorrections
  { action := action
    confidenceScore := confidenceScore
    reasoning := reasoning
    appliedCorrections := appliedCorrections
    memorySourceIds := memorySourceIds
    safetyConstraints := safetyConstraints
    thresholdAnalysis := thresholdAnalysis }

/-- The action-selection rule exactly as claim C1 words it ("spec-side"
definition for the refinement comparison): forcing flags first, then
the auto-accept test `confidence ≥ 0.85` with "no proposals exist or
some proposal has confidence ≥ 0.85 on a non-protected field", then
`confidence ≥ 0.65` for auto-correct, else human review. -/
def specC1Action (insights : MemoryInsights)
    (proposedCorrections : List ProposedCorrection) : DecisionType :=
  let flags := applySafetyConstraints defaultThresholds proposedCorrections
    insights.overallConfidence
  if SafetyFlag.tooManyCorrections ∈ flags ∨
     SafetyFlag.criticalFieldProtection ∈ flags ∨
     SafetyFlag.largeValueChange ∈ flags ∨
     SafetyFlag.overallLowConfidence ∈ flags ∨
     SafetyFlag.errorFallback ∈ flags then DecisionType.humanReview
  else if insights.overallConfidence ≥ 17/20 ∧
      (proposedCorrections = [] ∨
        ∃ c ∈ proposedCorrections, c.confidence ≥ 17/20 ∧
          c.field ∉ protectedFields) then DecisionType.autoAccept
  else if insights.overallConfidence ≥ 13/20 then DecisionType.autoCorrect
  else DecisionType.humanReview

/- ===================== ApplyEngine (ApplyEngine.ts, first module) ===================== -/

/-- `ApplyEngine.levenshteinDistance`'s DP matrix entry
(ApplyEngine.ts:274-292): `matrixEntry s1 s2 j i` is `matrix[j][i]`,
whose iterative fill satisfies exactly this recurrence — row 0 is
`0..len1`, column 0 is `0..len2`, and the inner cell takes the minimum
of deletion, insertion and substitution, where the substitution
indicator compares `str1[i-1]` with `str2[j-1]`. -/
def matrixEntry (s1 s2 : List Char) : ℕ → ℕ → ℕ
  | 0, i => i
  | j+1, 0 => j+1
  | j+1, i+1 =>
      min (matrixEntry s1 s2 (j+1) i + 1)
        (min (matrixEntry s1 s2 j (i+1) + 1)
          (matrixEntry s1 s2 j i + if s1[i]? = s2[j]? then 0 else 1))
  termination_by j i => (j, i)

/-- `ApplyEngine.levenshteinDistance(str1, str2)` returns the bottom-right
matrix cell `matrix[str2.length][str1.length]`. -/
def levenshteinDistance (str1 str2 : List Char) : ℕ :=
  matrixEntry str1 str2 str2.length str1.length

/-- `ApplyEngine.calculateStringSimilarity` (ApplyEngine.ts:261-269):
`(longer.length - editDistance) / longer.length`, and `1.0` when both
strings are empty. -/
def calculateStringSimilarity (str1 str2 : List Char) : ℚ :=
  let longer := if str1.length > str2.length then str1 else str2
  let shorter := if str1.length > str2.length then str2 else str1
  if longer.length = 0 then 1
  else ((longer.length : ℚ) - (levenshteinDistance longer shorter : ℚ)) / (longer.length : ℚ)

/-- Spec-side notion of edit script for claim C9: `Edits xs ys n` holds
iff `xs` can be transformed into `ys` by a character-by-character script
using `n` operations, each operation an insertion, a deletion or a
substitution (copying a matching character is free).  "Standard edit
distance" is the least such `n`. -/
inductive Edits : List Char → List Char → ℕ → Prop where
  | nil : Edits [] [] 0
  | copy (a : Char) {xs ys n} : Edits xs ys n → Edits (a :: xs) (a :: ys) n
  | subst (a b : Char) {xs ys n} : Edits xs ys n → Edits (a :: xs) (b :: ys) (n + 1)
  | delete (a : Char) {xs ys n} : Edits xs ys n → Edits (a :: xs) ys (n + 1)
  | insert (b : Char) {xs ys n} : Edits xs ys n → Edits xs (b :: ys) (n + 1)

/-- Textbook recursive edit distance (spec-side reference definition for
claim C9). -/
def editDist : List Char → List Char → ℕ
  | [], ys => ys.length
  | xs, [] => xs.length
  | x :: xs, y :: ys =>
      min (editDist xs (y :: ys) + 1)
        (min (editDist (x :: xs) ys + 1)
          (editDist xs ys + if x = y then 0 else 1))
  termination_by xs ys => (xs.length, ys.length)

/-- `ApplyEngine.calculateMemoryWeight` (ApplyEngine.ts:232-237):
`0.7 × confidence + min(usage/100, 0.3)`. -/
def calculateMemoryWeight (memory : VendorMemory) : ℚ :=
  memory.confidenceScore * (7/10) + min ((memory.usageCount : ℚ) / 100) (3/10)

/-- `ApplyEngine.isValueSimilar` (ApplyEngine.ts:242-256): exact match,
case-insensitive match, or normalized edit-similarity ≥ 0.8 (the
`typeof === 'string'` guards are always true here since both arguments
are strings by signature). -/
def isValueSimilar (originalValue currentValue : String) : Bool :=
  if originalValue = currentValue then true
  else if originalValue.toLower = currentValue.toLower then true
  else decide (calculateStringSimilarity originalValue.data currentValue.data ≥ 4/5)

/-- `ApplyEngine.parseValue` (ApplyEngine.ts:297-309): numeric originals
re-parse the corrected string (keeping the original on `NaN`), a `Date`
original never occurs in the `JsVal` domain, and everything else keeps
the corrected string as-is. -/
def parseValue (correctedValue : String) (originalValue : JsVal) : JsVal :=
  if originalValue.isNumber then
    match jsStringToNumber correctedValue with
    | JsVal.num q => JsVal.num q
    | _ => originalValue
  else JsVal.str correctedValue

/-- `ApplyEngine.generateCorrectionReasoning` (ApplyEngine.ts:314-321). -/
def generateCorrectionReasoning (correction : CorrectionMemory)
    (currentValue : JsVal) : String :=
  let approvalRate : ℚ := (correction.approvalCount : ℚ) /
    ((correction.approvalCount : ℚ) + (correction.rejectionCount : ℚ) + 1)
  s!"Based on {correction.approvalCount} previous approvals " ++
  s!"({fmtQ approvalRate} success rate), " ++
  s!"suggesting \"{correction.correctedValue}\" for \"{jsString currentValue}\" " ++
  s!"in field \"{correction.fieldName}\" with {fmtQ correction.confidenceScore} confidence"

/-- JS object-spread / assignment semantics on an insertion-ordered
string-keyed map: an existing key's value is overwritten in place, a new
key is appended. -/
def objAssign (base extra : List (String × JsVal)) : List (String × JsVal) :=
  extra.foldl (fun acc kv =>
    if acc.any (fun p => p.1 == kv.1) then
      acc.map (fun p => if p.1 == kv.1 then (p.1, kv.2) else p)
    else acc ++ [kv]) base

/-- The `fieldsToCheck` object of `ApplyEngine.proposeCorrections`
(ApplyEngine.ts:111-117): the four standard fields spread first, then
`invoice.rawFields` (later spread overrides earlier keys in place). -/
def fieldsToCheck (invoice : Invoice) : List (String × JsVal) :=
  objAssign
    [("invoiceNumber", JsVal.str invoice.invoiceNumber),
     ("amount", invoice.amount),
     ("date", invoice.date),
     ("vendorName", JsVal.str invoice.vendorName)]
    invoice.rawFields

/-- The body of the inner loop of `ApplyEngine.proposeCorrections`
(ApplyEngine.ts:131-153): propose a correction at confidence ≥ 0.5,
keeping per field only the highest-confidence proposal (the existing one
is spliced out when strictly beaten). -/
def considerCorrection (fieldName : String) (fieldValue : JsVal)
    (acc : List ProposedCorrection) (correction : CorrectionMemory) :
    List ProposedCorrection :=
  if correction.confidenceScore ≥ 1/2 then
    let pc : ProposedCorrection :=
      { field := fieldName
        originalValue := fieldValue
        correctedValue := parseValue correction.correctedValue fieldValue
        confidence := correction.confidenceScore
        memorySourceId := correction.id
        reasoning := generateCorrectionReasoning correction fieldValue }
    match acc.find? (fun p => p.field == fieldName) with
    | none => acc ++ [pc]
    | some existing =>
        if pc.confidence > existing.confidence then acc.erase existing ++ [pc]
        else acc
  else acc

/-- `ApplyEngine.proposeCorrections` (ApplyEngine.ts:106-160):
null/undefined field values are skipped, relevant corrections are the
same-field ones whose original value is similar to the current value,
sorted confidence-descending (stable), then folded through
`considerCorrection`. -/
def proposeCorrections (invoice : Invoice)
    (correctionMemory : List CorrectionMemory) : List ProposedCorrection :=
  (fieldsToCheck invoice).foldl (fun acc fv =>
    if fv.2 = JsVal.null then acc
    else
      let relevant := (correctionMemory.filter (fun c =>
        c.fieldName == fv.1 && isValueSimilar c.originalValue (jsString fv.2))).mergeSort
        (fun a b => decide (b.confidenceScore ≤ a.confidenceScore))
      relevant.foldl (considerCorrection fv.1 fv.2) acc) []

/-- An entry of the `normalizedFields` record built by
`ApplyEngine.normalizeInvoiceFields`: field-mapping entries carry a
`_weight` (deleted at the end), rule entries carry the original value
and the rule pattern. -/
structure NormEntry where
  value : JsVal
  originalValue : Option JsVal := none
  originalField : String
  confidence : ℚ
  rule : Option String := none
  weight : Option ℚ := none
  deriving Repr, DecidableEq

/-- `NormalizedInvoice` (interfaces/Invoice.ts). -/
structure NormalizedInvoice extends Invoice where
  normalizedFields : List (String × NormEntry)
  appliedNormalizations : List String
  deriving Repr, DecidableEq

/-- `CorrectedInvoice` (interfaces/Invoice.ts). -/
structure CorrectedInvoice extends NormalizedInvoice where
  appliedCorrections : List ProposedCorrection
  deriving Repr, DecidableEq

/-- Ordered-map lookup for `normalizedFields`-style lists. -/
def mapLookup {β : Type} (l : List (String × β)) (k : String) : Option β :=
  (l.find? (fun p => p.1 == k)).map (·.2)

/-- Ordered-map insert-or-replace for `normalizedFields`-style lists. -/
def mapInsert {β : Type} (l : List (String × β)) (k : String) (v : β) :
    List (String × β) :=
  if l.any (fun p => p.1 == k) then
    l.map (fun p => if p.1 == k then (p.1, v) else p)
  else l ++ [(k, v)]

/-- The field-mapping half of the per-memory loop of
`ApplyEngine.normalizeInvoiceFields` (ApplyEngine.ts:39-52): apply each
mapping whose original field is present, keeping the highest-weighted
entry per mapped field ( `_weight || 0` reads 0 off a rule entry). -/
def applyFieldMappings (fieldsToNormalize : List (String × JsVal))
    (memory : VendorMemory)
    (st : List (String × NormEntry) × List String) :
    List (String × NormEntry) × List String :=
  memory.fieldMappings.foldl (fun acc mapping =>
    match mapLookup fieldsToNormalize mapping.1 with
    | none => acc
    | some v =>
        let weight := calculateMemoryWeight memory
        let keep :=
          match mapLookup acc.1 mapping.2 with
          | none => true
          | some e => decide (weight > e.weight.getD 0)
        if keep then
          (mapInsert acc.1 mapping.2
            { value := v, originalField := mapping.1,
              confidence := memory.confidenceScore, weight := some weight },
           acc.2 ++ [s!"{mapping.1} -> {mapping.2} (confidence: {fmtQ memory.confidenceScore})"])
        else acc) st

/-- The normalization-rule half of the per-memory loop of
`ApplyEngine.normalizeInvoiceFields` (ApplyEngine.ts:54-82): regex
application is supplied as `regexReplace pattern replacement input`
(`none` models a rule whose pattern fails to compile, caught and
skipped); an unchanged value is not recorded, and per normalized field
the highest-rule-confidence transformation wins. -/
def applyNormalizationRules (regexReplace : String → String → String → Option String)
    (fieldsToNormalize : List (String × JsVal))
    (memory : VendorMemory)
    (st : List (String × NormEntry) × List String) :
    List (String × NormEntry) × List String :=
  memory.normalizationRules.foldl (fun acc rule =>
    match mapLookup fieldsToNormalize rule.fieldName with
    | some (JsVal.str fieldValue) =>
        match regexReplace rule.pattern rule.replacement fieldValue with
        | none => acc
        | some normalizedValue =>
            if normalizedValue ≠ fieldValue then
              let key := rule.fieldName ++ "_normalized"
              let keep :=
                match mapLookup acc.1 key with
                | none => true
                | some e => decide (rule.confidenceScore > e.confidence)
              if keep then
                (mapInsert acc.1 key
                  { value := JsVal.str normalizedValue,
                    originalValue := some (JsVal.str fieldValue),
                    originalField := rule.fieldName,
                    confidence := rule.confidenceScore,
                    rule := some rule.pattern },
                 acc.2 ++ [s!"{rule.fieldName}: \"{fieldValue}\" -> \"{normalizedValue}\" (confidence: {fmtQ rule.confidenceScore})"])
              else acc
            else acc
    | _ => acc) st

/-- `ApplyEngine.normalizeInvoiceFields` (ApplyEngine.ts:21-100): the
raw fields plus the four standard fields are normalized against every
vendor memory (mappings then rules), the internal `_weight` markers are
deleted at the end, and the original invoice fields are carried over
unchanged. -/
def normalizeInvoiceFields (regexReplace : String → String → String → Option String)
    (invoice : Invoice) (vendorMemory : List VendorMemory) : NormalizedInvoice :=
  let fieldsToNormalize := objAssign invoice.rawFields
    [("invoiceNumber", JsVal.str invoice.invoiceNumber),
     ("amount", invoice.amount),
     ("date", invoice.date),
     ("vendorName", JsVal.str invoice.vendorName)]
  let st := vendorMemory.foldl (fun acc memory =>
    applyNormalizationRules regexReplace fieldsToNormalize memory
      (applyFieldMappings fieldsToNormalize memory acc)) ([], [])
  { invoice with
    normalizedFields := st.1.map (fun p => (p.1, { p.2 with weight := none }))
    appliedNormalizations := st.2 }

/-- `new Date(v)` in the correction-application switch; date parsing is
abstracted to carrying the source value (no claim depends on it). -/
def jsNewDate (v : JsVal) : JsVal := v

/-- The `switch (correction.field)` of
`ApplyEngine.applyHighConfidenceCorrections` (ApplyEngine.ts:189-209):
the four standard fields are overwritten with the coerced corrected
value, any other field lands in `rawFields`. -/
def applyOneCorrection (ci : CorrectedInvoice) (c : ProposedCorrection) :
    CorrectedInvoice :=
  if c.field = "invoiceNumber" then { ci with invoiceNumber := jsString c.correctedValue }
  else if c.field = "amount" then { ci with amount := jsNumber c.correctedValue }
  else if c.field = "date" then { ci with date := jsNewDate c.correctedValue }
  else if c.field = "vendorName" then { ci with vendorName := jsString c.correctedValue }
  else { ci with rawFields := objAssign ci.rawFields [(c.field, c.correctedValue)] }

/-- `ApplyEngine.applyHighConfidenceCorrections` (ApplyEngine.ts:166-227):
normalize first (the vendor memory read from the store is a parameter
here), filter the proposals to confidence ≥ 0.85 — with no further
condition — and apply each one in order, recording it in
`appliedCorrections`. -/
def applyHighConfidenceCorrections
    (regexReplace : String → String → String → Option String)
    (invoice : Invoice) (vendorMemory : List VendorMemory)
    (corrections : List ProposedCorrection) : CorrectedInvoice :=
  let normalizedInvoice := normalizeInvoiceFields regexReplace invoice vendorMemory
  let highConfidenceCorrections := corrections.filter (fun c => decide (c.confidence ≥ 17/20))
  let init : CorrectedInvoice :=
    { normalizedInvoice with appliedCorrections := [] }
  let final := highConfidenceCorrections.foldl
    (fun (st : CorrectedInvoice × List ProposedCorrection) c =>
      (applyOneCorrection st.1 c, st.2 ++ [c])) (init, [])
  { final.1 with appliedCorrections := final.2 }

/- ===================== MemoryStore (models/MemoryStore.ts) ===================== -/

/-- The durable state of the PostgreSQL-backed `MemoryStore`: the four
tables (vendor, correction and resolution memory, audit logs). -/
structure StoreState where
  vendorMemoryRows : List VendorMemory
  correctionMemoryRows : List CorrectionMemory
  resolutionMemoryRows : List ResolutionMemory
  auditLogs : List AuditLog
  deriving Repr, DecidableEq

/-- JSON snapshot of a correction row for audit before/after states
(rendering abstracted to `Repr`). -/
def jsonOfCorrection (m : CorrectionMemory) : String := toString (repr m)

/-- The row update of `MemoryStore.updateCorrectionMemoryFeedback`
(MemoryStore.ts:380-394): approval adds 0.1 capped at 1.0
(`LEAST(1.0, confidence_score + 0.1)`) and bumps the approval counter;
rejection subtracts 0.15 floored at 0.0
(`GREATEST(0.0, confidence_score - 0.15)`) and bumps the rejection
counter. -/
def updateCorrectionRow (approved : Bool) (m : CorrectionMemory) : CorrectionMemory :=
  if approved then
    { m with approvalCount := m.approvalCount + 1,
             confidenceScore := min 1 (m.confidenceScore + 1/10) }
  else
    { m with rejectionCount := m.rejectionCount + 1,
             confidenceScore := max 0 (m.confidenceScore - 3/20) }

/-- `MemoryStore.updateCorrectionMemoryFeedback` (MemoryStore.ts:374-411):
update the matching row in place and append one audit entry with
before/after snapshots. -/
def updateCorrectionMemoryFeedback (now : ℤ) (correctionId : String)
    (approved : Bool) (st : StoreState) : StoreState :=
  let beforeState := (st.correctionMemoryRows.find? (fun m => m.id == correctionId)).map
    jsonOfCorrection
  let newRows := st.correctionMemoryRows.map (fun m =>
    if m.id = correctionId then updateCorrectionRow approved m else m)
  let afterRow := newRows.find? (fun m => m.id == correctionId)
  { st with
    correctionMemoryRows := newRows
    auditLogs := st.auditLogs ++
      [{ id := s!"audit_{now}"
         operation := "update_correction_feedback"
         entityType := "correction_memory"
         entityId := correctionId
         beforeState := beforeState
         afterState := afterRow.map jsonOfCorrection
         reasoning :=
           let tone := if approved then "positive" else "negative"
           s!"Updated correction memory based on {tone} feedback"
         confidenceScore := some ((afterRow.map (·.confidenceScore)).getD 0)
         timestamp := now }] }

/-- `MemoryStore.updateVendorMemoryUsage` (MemoryStore.ts:265-282):
bump the usage counter, stamp `last_used`, and append one audit entry. -/
def updateVendorMemoryUsage (now : ℤ) (vendorMemoryId : String)
    (st : StoreState) : StoreState :=
  { st with
    vendorMemoryRows := st.vendorMemoryRows.map (fun m =>
      if m.id = vendorMemoryId then
        { m with usageCount := m.usageCount + 1, lastUsed := now }
      else m)
    auditLogs := st.auditLogs ++
      [{ id := s!"audit_{now}"
         operation := "update_vendor_usage"
         entityType := "vendor_memory"
         entityId := vendorMemoryId
         reasoning := "Updated usage count and last used timestamp"
         timestamp := now }] }

/-- `MemoryStore.getCorrectionMemory` (MemoryStore.ts:332-369): the rows
with the given `field_name` (vendor-scoped or vendor-NULL when a vendor
is given), ordered by confidence then creation time descending, with a
`memory_access` audit entry appended. -/
def getCorrectionMemory (now : ℤ) (fieldName : String) (vendorName : Option String)
    (st : StoreState) : List CorrectionMemory × StoreState :=
  let rows := (st.correctionMemoryRows.filter (fun r =>
    r.fieldName == fieldName &&
    (match vendorName with
     | some v => r.vendorName == some v || r.vendorName == none
     | none => true))).mergeSort (fun a b =>
      decide (b.confidenceScore < a.confidenceScore) ||
      (a.confidenceScore == b.confidenceScore && decide (b.createdAt ≤ a.createdAt)))
  (rows,
   { st with auditLogs := st.auditLogs ++
      [{ id := s!"audit_{now}"
         operation := "memory_access"
         entityType := "correction_memory"
         entityId :=
           let vkey := vendorName.getD "any"
           s!"{fieldName}:{vkey}"
         reasoning :=
           let vkey := vendorName.getD "any"
           s!"Retrieved {rows.length} correction_memory records for key: {fieldName}:{vkey}"
         timestamp := now }] })

/- ===================== LearningEngine (LearningEngine.ts) ===================== -/

/-- `LearningEvent` (LearningEngine.ts:21-30); the event-type and
memory-type tags are kept as their source strings. -/
structure LearningEvent where
  id : String
  invoiceId : String
  eventType : String
  memoryType : String
  memoryId : String
  confidenceChange : ℚ
  reasoning : String
  timestamp : ℤ
  deriving Repr, DecidableEq

/-- `LearningFeedback` (LearningEngine.ts:11-19). -/
structure LearningFeedback where
  invoiceId : String
  correctionId : Option String := none
  vendorMemoryId : Option String := none
  resolutionMemoryId : Option String := none
  approved : Bool
  reasoning : Option String := none
  timestamp : ℤ
  deriving Repr, DecidableEq

/-- The `LearningEngine`'s in-process state: the shared store, the
`processedInvoices` idempotency set (insertion-ordered) and the
`learningEvents` log. -/
structure LearningState where
  store : StoreState
  processedInvoices : List String
  learningEvents : List LearningEvent
  deriving Repr, DecidableEq

/-- `LearningEngine.reinforceCorrectionMemory` (LearningEngine.ts:275-297):
look the correction up via `getCorrectionMemory('', undefined)` (an
empty-field query — only corrections whose `fieldName` is the empty
string are returned), fail if absent, otherwise apply the feedback
update and report the confidence change. -/
def reinforceCorrectionMemory (now : ℤ) (correctionId : String) (approved : Bool)
    (st : StoreState) : Except String (ℚ × StoreState) :=
  let r1 := getCorrectionMemory now "" none st
  match r1.1.find? (fun c => c.id == correctionId) with
  | none => Except.error s!"Correction memory {correctionId} not found"
  | some target =>
      let st2 := updateCorrectionMemoryFeedback now correctionId approved r1.2
      let r2 := getCorrectionMemory now "" none st2
      let change := match r2.1.find? (fun c => c.id == correctionId) with
        | some updated => updated.confidenceScore - target.confidenceScore
        | none => 0
      Except.ok (change, r2.2)

/-- `LearningEngine.reinforceVendorMemory` (LearningEngine.ts:302-317):
bump usage and report the fixed ±(0.05 / −0.1) confidence delta. -/
def reinforceVendorMemory (now : ℤ) (vendorMemoryId : String) (approved : Bool)
    (st : StoreState) : ℚ × StoreState :=
  ((if approved then (1/20 : ℚ) else -1/10), updateVendorMemoryUsage now vendorMemoryId st)

/-- `LearningEngine.reinforceResolutionMemory` (LearningEngine.ts:322-326):
a placeholder ±(0.05 / −0.1) confidence delta, no store change. -/
def reinforceResolutionMemory (approved : Bool) : ℚ :=
  if approved then 1/20 else -1/10

/-- Event-record construction shared by the three branches of
`reinforceMemory` (id randomness abstracted by `now`). -/
def mkLearningEvent (now : ℤ) (fb : LearningFeedback) (memoryType memoryId : String)
    (change : ℚ) (defaultReason : String) : LearningEvent :=
  { id := s!"learning_{now}"
    invoiceId := fb.invoiceId
    eventType := if fb.approved then "positive-reinforcement" else "negative-reinforcement"
    memoryType := memoryType
    memoryId := memoryId
    confidenceChange := change
    reasoning := fb.reasoning.getD defaultReason
    timestamp := fb.timestamp }

/-- `LearningEngine.reinforceMemory` (LearningEngine.ts:45-111).  A
duplicate invoice id returns immediately (a `console.warn` only — no
store write, no learning event, no audit entry).  Otherwise the
correction / vendor / resolution branches run in order, the events are
recorded and the invoice id is added to the idempotency set; a missing
correction id is a thrown (propagated) error. -/
def reinforceMemory (now : ℤ) (fb : LearningFeedback) (ls : LearningState) :
    Except String LearningState :=
  if ls.processedInvoices.contains fb.invoiceId then Except.ok ls
  else
    let step1 : Except String (StoreState × List LearningEvent) :=
      match fb.correctionId with
      | none => Except.ok (ls.store, [])
      | some cid =>
          match reinforceCorrectionMemory now cid fb.approved ls.store with
          | Except.error e => Except.error e
          | Except.ok (change, st) =>
              let word := if fb.approved then "Approved" else "Rejected"
              Except.ok (st, [mkLearningEvent now fb "correction" cid change
                (s!"{word} correction")])
    match step1 with
    | Except.error e => Except.error s!"Failed to reinforce memory: {e}"
    | Except.ok (st1, evs1) =>
        let step2 : StoreState × List LearningEvent :=
          match fb.vendorMemoryId with
          | none => (st1, evs1)
          | some vid =>
              let r := reinforceVendorMemory now vid fb.approved st1
              let word := if fb.approved then "Approved" else "Rejected"
              (r.2, evs1 ++ [mkLearningEvent now fb "vendor" vid r.1
                (s!"{word} vendor pattern")])
        let evs3 : List LearningEvent :=
          match fb.resolutionMemoryId with
          | none => step2.2
          | some rid =>
              let word := if fb.approved then "Approved" else "Rejected"
              step2.2 ++ [mkLearningEvent now fb "resolution" rid
                (reinforceResolutionMemory fb.approved)
                (s!"{word} resolution")]
        Except.ok
          { store := step2.1
            processedInvoices := ls.processedInvoices ++ [fb.invoiceId]
            learningEvents := ls.learningEvents ++ evs3 }

/-- `LearningEngine.preventDuplicateLearning` (LearningEngine.ts:147-149). -/
def preventDuplicateLearning (ls : LearningState) (invoiceId : String) : Bool :=
  ls.processedInvoices.contains invoiceId

/- ===================== OutputEngine (RecallEngine.ts, second module) ===================== -/

/-- JS `Math.min`. -/
def mathMin (a b : ℚ) : ℚ := if a ≤ b then a else b

/-- JS `Math.max`. -/
def mathMax (a b : ℚ) : ℚ := if a ≤ b then b else a

/-- An entry of the published `appliedCorrections` list (Output.ts). -/
structure ResultCorrection where
  field : String
  originalValue : JsVal
  correctedValue : JsVal
  confidence : ℚ
  deriving Repr, DecidableEq

/-- The published `memoryInsights` block (Output.ts). -/
structure ResultMemoryInsights where
  vendorPatternsUsed : ℕ
  correctionsApplied : ℕ
  historicalAccuracy : ℚ
  deriving Repr, DecidableEq

/-- An entry of the published `auditTrail` list (Output.ts). -/
structure AuditTrailEntry where
  operationId : String
  timestamp : String
  reasoning : String
  deriving Repr, DecidableEq

/-- `InvoiceProcessingResult` (interfaces/Output.ts) — the published
result contract. -/
structure InvoiceProcessingResult where
  invoiceId : String
  decision : DecisionType
  confidenceScore : ℚ
  reasoning : String
  appliedCorrections : List ResultCorrection
  memoryInsights : ResultMemoryInsights
  auditTrail : List AuditTrailEntry
  deriving Repr, DecidableEq

/-- `OutputEngine.validateConfidenceScore` (RecallEngine.ts:524-529):
`Math.max(0.0, Math.min(1.0, score))`; the `isNaN` branch cannot arise
in the rational model. -/
def validateConfidenceScore (score : ℚ) : ℚ := mathMax 0 (mathMin 1 score)

/-- The control-character predicate of the sanitizers
(`[\u0000-\u001F\u007F-\u009F]`). -/
def isJsControlChar (c : Char) : Bool :=
  c.toNat ≤ 0x1F || (0x7F ≤ c.toNat && c.toNat ≤ 0x9F)

/-- `OutputEngine.sanitizeValue` (RecallEngine.ts:534-561): null out
null/undefined and NaN, strip control characters and cap strings at
1000 characters, keep numbers. -/
def sanitizeValue (v : JsVal) : JsVal :=
  match v with
  | JsVal.null => JsVal.null
  | JsVal.str s => JsVal.str ⟨(s.data.filter (fun c => !isJsControlChar c)).take 1000⟩
  | JsVal.num q => JsVal.num q
  | JsVal.nan => JsVal.null

/-- `OutputEngine.sanitizeErrorMessage` (RecallEngine.ts:633-638):
strip control characters, cap at 200, replace double quotes with single
quotes. -/
def sanitizeErrorMessage (message : String) : String :=
  ⟨((message.data.filter (fun c => !isJsControlChar c)).take 200).map
    (fun c => if c = '"' then '\'' else c)⟩

/-- JS `(a / b) || 0` where the only zero-denominator case in this code
is `0 / 0` (NaN, falsy, coerced to 0): `successfulResolutions` is 0
whenever the resolution list is empty. -/
def jsDiv (a b : ℚ) : ℚ := if b = 0 then 0 else a / b

/-- `OutputEngine.calculateMemoryInsights` (RecallEngine.ts:566-584):
historical accuracy is the successful-resolution share (0 when the
`0/0` NaN is coerced away, or when no patterns exist at all), clamped
through `validateConfidenceScore`. -/
def calculateMemoryInsights (insights : MemoryInsights)
    (appliedCorrections : List ProposedCorrection) : ResultMemoryInsights :=
  let totalPatterns := insights.vendorPatterns.length +
    insights.suggestedCorrections.length + insights.historicalResolutions.length
  let successfulResolutions := (insights.historicalResolutions.filter
    (fun r => r.outcomeSuccess)).length
  let historicalAccuracy : ℚ :=
    if totalPatterns > 0 then
      jsDiv (successfulResolutions : ℚ) (insights.historicalResolutions.length : ℚ)
    else 0
  { vendorPatternsUsed := insights.vendorPatterns.length
    correctionsApplied := appliedCorrections.length
    historicalAccuracy := validateConfidenceScore historicalAccuracy }

/-- Upper-case action rendering (`decision.action.toUpperCase()`). -/
def DecisionType.upper : DecisionType → String
  | DecisionType.autoAccept => "AUTO-ACCEPT"
  | DecisionType.autoCorrect => "AUTO-CORRECT"
  | DecisionType.humanReview => "HUMAN-REVIEW"

/-- `OutputEngine.formatAuditTrail` (RecallEngine.ts:589-604): render
the supplied audit logs and append the decision entry. -/
def formatAuditTrail (now : ℤ) (auditLogs : List AuditLog)
    (decision : ProcessingDecision) : List AuditTrailEntry :=
  auditLogs.map (fun log =>
    { operationId := log.id, timestamp := isoString log.timestamp,
      reasoning := log.reasoning }) ++
  [{ operationId := s!"decision_{now}"
     timestamp := isoString now
     reasoning := s!"Decision made: {decision.action.tag} with confidence {fmtQ decision.confidenceScore}" }]

/-- `OutputEngine.createStructuredReasoning` (RecallEngine.ts:610-628). -/
def createStructuredReasoning (decision : ProcessingDecision)
    (insights : MemoryInsights) : String :=
  let parts : List String :=
    [s!"Decision: {decision.action.upper}",
     s!"Confidence: {fmtQ decision.confidenceScore}",
     s!"Memory Sources: {decision.memorySourceIds.length} pattern(s)",
     s!"Applied Corrections: {decision.appliedCorrections.length}",
     decision.reasoning] ++
    (if decision.safetyConstraints.length > 0 then
      let tagsText := String.intercalate ", " (decision.safetyConstraints.map SafetyFlag.tag)
      [s!"Safety Constraints: {tagsText}"]
     else []) ++
    (if insights.reasoning.length > 0 then
      let reasonText := String.intercalate "; " insights.reasoning
      [s!"Memory Analysis: {reasonText}"]
     else [])
  String.intercalate " | " parts

/-- `OutputValidationResult` (RecallEngine.ts:298-302). -/
structure OutputValidationResult where
  isValid : Bool
  errors : List String
  warnings : List String
  deriving Repr, DecidableEq

/-- `OutputEngine.validateOutput` (RecallEngine.ts:389-483).  The
`typeof` checks are vacuous in the typed model; the decision-enum check
and the non-negativity checks on the `ℕ` counters can never fail and
are therefore omitted; every remaining check is modelled. -/
def validateOutput (result : InvoiceProcessingResult) : OutputValidationResult :=
  let errors : List String :=
    (if result.invoiceId = "" then ["invoiceId must be a non-empty string"] else []) ++
    (if ¬(0 ≤ result.confidenceScore ∧ result.confidenceScore ≤ 1) then
      ["confidenceScore must be a number between 0 and 1"] else []) ++
    (if result.reasoning = "" then ["reasoning must be a non-empty string"] else []) ++
    (result.appliedCorrections.enum.foldl (fun acc ic =>
      acc ++
      (if ic.2.field = "" then
        [s!"appliedCorrections[{ic.1}].field must be a non-empty string"] else []) ++
      (if ¬(0 ≤ ic.2.confidence ∧ ic.2.confidence ≤ 1) then
        [s!"appliedCorrections[{ic.1}].confidence must be a number between 0 and 1"] else [])) []) ++
    (if ¬(0 ≤ result.memoryInsights.historicalAccuracy ∧
          result.memoryInsights.historicalAccuracy ≤ 1) then
      ["memoryInsights.historicalAccuracy must be a number between 0 and 1"] else []) ++
    (result.auditTrail.enum.foldl (fun acc ie =>
      acc ++
      (if ie.2.operationId = "" then
        [s!"auditTrail[{ie.1}].operationId must be a non-empty string"] else []) ++
      (if ie.2.timestamp = "" then
        [s!"auditTrail[{ie.1}].timestamp must be a non-empty string"]
       else if ¬jsDateValid ie.2.timestamp then
        [s!"auditTrail[{ie.1}].timestamp must be a valid ISO timestamp"] else []) ++
      (if ie.2.reasoning = "" then
        [s!"auditTrail[{ie.1}].reasoning must be a non-empty string"] else [])) [])
  let warnings : List String :=
    (if result.appliedCorrections.length > 0 ∧ result.decision = DecisionType.humanReview then
      ["Applied corrections present but decision is human-review"] else []) ++
    (if result.confidenceScore > 4/5 ∧ result.decision = DecisionType.humanReview then
      ["High confidence score but decision is human-review"] else [])
  { isValid := errors.isEmpty, errors := errors, warnings := warnings }

/-- `OutputEngine.createErrorOutput` (RecallEngine.ts:363-383): the
standard error-shaped result — human-review, confidence 0.0, an
explanatory reasoning string, no corrections, zeroed memory-insight
counters, one audit entry describing the failure. -/
def createErrorOutput (now : ℤ) (invoiceId : String) (error : String) :
    InvoiceProcessingResult :=
  { invoiceId := if invoiceId = "" then "unknown" else invoiceId
    decision := DecisionType.humanReview
    confidenceScore := 0
    reasoning := s!"Error occurred during processing: {sanitizeErrorMessage error}. Defaulting to human review for safety."
    appliedCorrections := []
    memoryInsights := { vendorPatternsUsed := 0, correctionsApplied := 0,
                        historicalAccuracy := 0 }
    auditTrail := [{ operationId := s!"error_{now}"
                     timestamp := isoString now
                     reasoning := s!"Processing error: {sanitizeErrorMessage error}" }] }

/-- The `try`-body of `OutputEngine.createInvoiceProcessingResult`
(RecallEngine.ts:315-344): the result as built before the final
validation throw. -/
def buildRawResult (now : ℤ) (invoice : Invoice) (decision : ProcessingDecision)
    (insights : MemoryInsights) (auditLogs : List AuditLog) :
    InvoiceProcessingResult :=
  { invoiceId := invoice.id
    decision := decision.action
    confidenceScore := validateConfidenceScore decision.confidenceScore
    reasoning := createStructuredReasoning decision insights
    appliedCorrections := decision.appliedCorrections.map (fun c =>
      { field := c.field
        originalValue := sanitizeValue c.originalValue
        correctedValue := sanitizeValue c.correctedValue
        confidence := validateConfidenceScore c.confidence })
    memoryInsights := calculateMemoryInsights insights decision.appliedCorrections
    auditTrail := formatAuditTrail now auditLogs decision }

/-- `OutputEngine.createInvoiceProcessingResult` (RecallEngine.ts:309-357):
build the result, validate it, and catch any validation failure into
the standard error-shaped output — the function is total and never
propagates an error. -/
def createInvoiceProcessingResult (now : ℤ) (invoice : Invoice)
    (decision : ProcessingDecision) (insights : MemoryInsights)
    (auditLogs : List AuditLog) : InvoiceProcessingResult :=
  let result := buildRawResult now invoice decision insights auditLogs
  let validation := validateOutput result
  if validation.isValid then result
  else
    let errorsText := String.intercalate ", " validation.errors
    createErrorOutput now invoice.id s!"Output validation failed: {errorsText}"

/- ===================== Concrete sample inputs for witnesses and counterexamples ===================== -/

/-- A regex oracle under which every rule pattern fails to compile (the
caught-and-skipped branch of the normalizer). -/
def noRegex : String → String → String → Option String := fun _ _ _ => none

/-- Concrete invoice for the C3 counterexample. -/
def c3Invoice : Invoice :=
  { id := "inv_c3", vendorName := "Acme Corp", invoiceNumber := "INV-9",
    amount := JsVal.num 100, date := JsVal.num 0, lineItemCount := 0, rawFields := [] }

/-- Concrete high-confidence proposal on the protected field `amount`
for the C3 counterexample. -/
def c3Correction : ProposedCorrection :=
  { field := "amount", originalValue := JsVal.num 100, correctedValue := JsVal.num 42,
    confidence := 9/10, memorySourceId := "corr_9", reasoning := "historical" }

/-- An empty pattern store. -/
def emptyStore : StoreState :=
  { vendorMemoryRows := [], correctionMemoryRows := [], resolutionMemoryRows := [],
    auditLogs := [] }

/-- Concrete feedback value for the C4 idempotency scenario. -/
def c4Feedback : LearningFeedback :=
  { invoiceId := "inv_001", approved := true, timestamp := 0 }

/-- Learning state before the first C4 feedback call. -/
def c4State0 : LearningState :=
  { store := emptyStore, processedInvoices := [], learningEvents := [] }

/-- Learning state after the first C4 feedback call. -/
def c4State1 : LearningState :=
  { store := emptyStore, processedInvoices := ["inv_001"], learningEvents := [] }

/-- Concrete invoice shared by witnesses. -/
def sampleInvoice : Invoice :=
  { id := "inv_001", vendorName := "Acme Corp", invoiceNumber := "INV-1",
    amount := JsVal.num 1250, date := JsVal.num 0, lineItemCount := 0, rawFields := [] }

/-- Concrete high-confidence insights for the C5 witness. -/
def sampleInsights : MemoryInsights :=
  { vendorPatterns := [], suggestedCorrections := [], historicalResolutions := [],
    overallConfidence := 9/10, reasoning := [] }

/-- Concrete low-confidence protected-field proposal for the C5 witness. -/
def c5Correction : ProposedCorrection :=
  { field := "amount", originalValue := JsVal.num 100, correctedValue := JsVal.num 105,
    confidence := 1/2, memorySourceId := "corr_1", reasoning := "sample" }

/-- Insights of a document with zero matching memory (C6 witness). -/
def c6Insights : MemoryInsights :=
  { vendorPatterns := [], suggestedCorrections := [], historicalResolutions := [],
    overallConfidence := calculateOverallConfidence [] [] [], reasoning := [] }

/-- Invoice with an empty id, which fails output validation (C8 witness). -/
def c8Invoice : Invoice :=
  { id := "", vendorName := "Acme Corp", invoiceNumber := "INV-1",
    amount := JsVal.num 1250, date := JsVal.num 0, lineItemCount := 0, rawFields := [] }

/-- Concrete decision record for the C8 witness. -/
def c8Decision : ProcessingDecision :=
  { action := DecisionType.autoAccept, confidenceScore := 0, reasoning := "ok",
    appliedCorrections := [], memorySourceIds := [], safetyConstraints := [],
    thresholdAnalysis :=
      { autoAcceptThreshold := 1, autoCorrectThreshold := 1, humanReviewThreshold := 1,
        actualConfidence := 0, exceedsAutoAccept := false, exceedsAutoCorrect := false } }

/-- Concrete empty insights for the C8 witness. -/
def c8Insights : MemoryInsights :=
  { vendorPatterns := [], suggestedCorrections := [], historicalResolutions := [],
    overallConfidence := 0, reasoning := [] }

/- ===================== end of definitions (part 1) ===================== -/

/- ===================== General helper lemmas ===================== -/

/-- A `reduce((s, x) => s + f(x), a)` accumulation is the seed plus the
sum of the mapped list. -/
theorem foldl_add_map_sum {α : Type} (f : α → ℚ) (l : List α) (a : ℚ) :
    l.foldl (fun sum x => sum + f x) a = a + (l.map f).sum := by
  induction l generalizing a with
  | nil => simp
  | cons x xs ih => simp [ih, add_assoc]

/-- A safety-constraint list triggers the blocking test of
`determineAction` iff one of the five blocking flags is a member. -/
theorem any_blocking_iff (l : List SafetyFlag) :
    (l.any (fun c => decide (c ∈ blockingConstraints)) = true) ↔
      (SafetyFlag.tooManyCorrections ∈ l ∨ SafetyFlag.criticalFieldProtection ∈ l ∨
       SafetyFlag.largeValueChange ∈ l ∨ SafetyFlag.overallLowConfidence ∈ l ∨
       SafetyFlag.errorFallback ∈ l) := by
  simp only [List.any_eq_true, decide_eq_true_eq, blockingConstraints, List.mem_cons,
    List.not_mem_nil, or_false]
  constructor
  · rintro ⟨x, hx, h⟩
    rcases h with h | h | h | h | h <;> subst h <;> tauto
  · rintro (h | h | h | h | h) <;> exact ⟨_, h, by simp⟩

/-- A filtered list is non-empty iff some element satisfies the predicate. -/
theorem filter_length_pos_iff {α : Type} (l : List α) (p : α → Bool) :
    (0 < (l.filter p).length) ↔ ∃ a ∈ l, p a = true := by
  simp [List.length_pos_iff_exists_mem, List.mem_filter]

/- ===================== Claim theorems ===================== -/

/-- Claim C1 (confirmed): for every memory-insights value and every list
of proposed corrections, `makeProcessingDecision` (at the default
thresholds) selects the action by exactly the claimed priority: a
forcing safety flag forces human-review; otherwise overall confidence
≥ 0.85 together with (no proposals, or some proposal of confidence
≥ 0.85 on a non-protected field) yields auto-accept; otherwise
confidence ≥ 0.65 yields auto-correct; otherwise human-review. -/
theorem claim_C1 (inv : Invoice) (insights : MemoryInsights)
    (cs : List ProposedCorrection) :
    (makeProcessingDecision defaultThresholds inv insights cs).action =
      specC1Action insights cs := by
  simp only [makeProcessingDecision, specC1Action, determineAction,
    evaluateConfidenceThresholds, defaultThresholds, any_blocking_iff,
    Bool.and_eq_true, Bool.or_eq_true, decide_eq_true_eq, beq_iff_eq,
    List.length_eq_zero, gt_iff_lt, filter_length_pos_iff, Bool.not_eq_true',
    decide_eq_false_iff_not, ge_iff_le]

/-- Claim C2, counterexample: for a single vendor pattern of confidence
1.0 and usage count 1 (and no other memory), the code returns 1/2 while
the claimed usage-weighted-mean blend returns 1 — the claim's equality
fails because the source seeds the usage denominator with 1. -/
theorem claim_C2_counterexample :
    calculateOverallConfidence [c2VendorPattern] [] [] ≠
      specOverallConfidenceC2 [c2VendorPattern] [] [] ∧
    calculateOverallConfidence [c2VendorPattern] [] [] = 1/2 ∧
    specOverallConfidenceC2 [c2VendorPattern] [] [] = 1 := by
  refine ⟨?_, ?_, ?_⟩ <;>
    norm_num [calculateOverallConfidence, specOverallConfidenceC2, c2VendorPattern]

/-- Claim C2 as amended (proved): `calculateOverallConfidence` equals
the claimed renormalized 0.5/0.3/0.2 blend clamped to 1, except that
the vendor sub-confidence is `Σ cᵢ·uᵢ / (1 + Σ uᵢ)` — the denominator
is seeded at 1 — rather than the usage-weighted mean. -/
theorem claim_C2 (v : List VendorMemory) (c : List CorrectionMemory)
    (r : List ResolutionMemory) :
    calculateOverallConfidence v c r = specOverallConfidenceC2Amended v c r := by
  unfold calculateOverallConfidence specOverallConfidenceC2Amended
  rcases eq_or_ne v [] with hv | hv <;> rcases eq_or_ne c [] with hc | hc <;>
    rcases eq_or_ne r [] with hr | hr <;>
      simp [hv, hc, hr, foldl_add_map_sum, List.length_pos_of_ne_nil] <;>
      norm_num <;> congr 1 <;> ring

/-- Claim C5 (confirmed): any proposal on a protected field (amount,
vendorName, invoiceNumber) with confidence below 0.85 forces the
decision to human-review, and the human-review decision attaches no
corrections. -/
theorem claim_C5 (inv : Invoice) (insights : MemoryInsights)
    (cs : List ProposedCorrection)
    (h : ∃ c ∈ cs, c.field ∈ protectedFields ∧ c.confidence < 17/20) :
    (makeProcessingDecision defaultThresholds inv insights cs).action =
      DecisionType.humanReview ∧
    (makeProcessingDecision defaultThresholds inv insights cs).appliedCorrections = [] := by
  have h3 : 0 < (cs.filter (fun c =>
      decide (c.field ∈ protectedFields) && decide (c.confidence < (17/20 : ℚ)))).length := by
    rw [filter_length_pos_iff]
    obtain ⟨c, hc, h1, h2⟩ := h
    exact ⟨c, hc, by simp [h1, h2]⟩
  have hcrit : SafetyFlag.criticalFieldProtection ∈
      applySafetyConstraints defaultThresholds cs insights.overallConfidence := by
    unfold applySafetyConstraints
    simp only [defaultThresholds] at h3 ⊢
    simp [h3]
  have hany : ((applySafetyConstraints defaultThresholds cs
      insights.overallConfidence).any (fun c => decide (c ∈ blockingConstraints)) = true) := by
    rw [any_blocking_iff]; tauto
  constructor
  · simp [makeProcessingDecision, determineAction, hany]
  · simp [makeProcessingDecision, determineAction, filterCorrectionsForAction, hany]

/- ===================== Edit-distance machinery (claim C9) ===================== -/

theorem editDist_nil_left (ys : List Char) : editDist [] ys = ys.length := by
  simp [editDist]

theorem editDist_nil_right (xs : List Char) : editDist xs [] = xs.length := by
  cases xs <;> simp [editDist]

theorem editDist_cons_cons (x y : Char) (xs ys : List Char) :
    editDist (x :: xs) (y :: ys) =
      min (editDist xs (y :: ys) + 1)
        (min (editDist (x :: xs) ys + 1)
          (editDist xs ys + if x = y then 0 else 1)) := by
  simp [editDist]

theorem editDist_comm (xs ys : List Char) : editDist xs ys = editDist ys xs := by
  induction xs, ys using editDist.induct with
  | case1 ys => simp [editDist_nil_left, editDist_nil_right]
  | case2 xs _ => simp [editDist_nil_left, editDist_nil_right]
  | case3 x xs y ys ih1 ih2 ih3 =>
      rw [editDist_cons_cons, editDist_cons_cons, ih1, ih2, ih3]
      have : (if x = y then 0 else 1) = (if y = x then 0 else 1) := by
        simp [eq_comm]
      rw [this]
      omega

theorem editDist_le_max (xs ys : List Char) :
    editDist xs ys ≤ max xs.length ys.length := by
  induction xs, ys using editDist.induct with
  | case1 ys => simp [editDist_nil_left]
  | case2 xs _ => simp [editDist_nil_right]
  | case3 x xs y ys ih1 ih2 ih3 =>
      rw [editDist_cons_cons]
      by_cases hxy : x = y <;> simp only [hxy, if_true, if_false] <;>
        simp at ih1 ih2 ih3 ⊢ <;> omega

theorem editDist_eq_zero_iff (xs ys : List Char) :
    editDist xs ys = 0 ↔ xs = ys := by
  induction xs, ys using editDist.induct with
  | case1 ys => simp [editDist_nil_left, List.length_eq_zero, eq_comm]
  | case2 xs h => cases xs with
      | nil => simp at h
      | cons a as => simp [editDist_nil_right]
  | case3 x xs y ys ih1 ih2 ih3 =>
      rw [editDist_cons_cons]
      by_cases hxy : x = y <;>
        simp [hxy, Nat.min_eq_zero_iff, ih3]



theorem edits_nil_left (ys : List Char) : Edits [] ys ys.length := by
  induction ys with
  | nil => exact Edits.nil
  | cons y ys ih => exact Edits.insert y ih

theorem edits_nil_right (xs : List Char) : Edits xs [] xs.length := by
  induction xs with
  | nil => exact Edits.nil
  | cons x xs ih => exact Edits.delete x ih

theorem edits_editDist (xs ys : List Char) : Edits xs ys (editDist xs ys) := by
  induction xs, ys using editDist.induct with
  | case1 ys => rw [editDist_nil_left]; exact edits_nil_left ys
  | case2 xs _ => rw [editDist_nil_right]; exact edits_nil_right xs
  | case3 x xs y ys ih1 ih2 ih3 =>
      rw [editDist_cons_cons]
      rcases min_cases (editDist xs (y :: ys) + 1)
        (min (editDist (x :: xs) ys + 1) (editDist xs ys + if x = y then 0 else 1)) with
        ⟨h, _⟩ | ⟨h, _⟩
      · rw [h]; exact Edits.delete x ih1
      · rw [h]
        rcases min_cases (editDist (x :: xs) ys + 1)
          (editDist xs ys + if x = y then 0 else 1) with ⟨h2, _⟩ | ⟨h2, _⟩
        · rw [h2]; exact Edits.insert y ih2
        · rw [h2]
          by_cases hxy : x = y
          · subst hxy; simpa using Edits.copy x ih3
          · simpa [hxy] using Edits.subst x y ih3

theorem editDist_le_of_edits {xs ys : List Char} {n : ℕ} (h : Edits xs ys n) :
    editDist xs ys ≤ n := by
  induction h with
  | nil => simp [editDist_nil_left]
  | copy a h ih =>
      rw [editDist_cons_cons]
      refine le_trans (le_trans (min_le_right _ _) (min_le_right _ _)) ?_
      simpa using ih
  | subst a b h ih =>
      rw [editDist_cons_cons]
      refine le_trans (le_trans (min_le_right _ _) (min_le_right _ _)) ?_
      by_cases hab : a = b <;> simp [hab] <;> omega
  | delete a h ih =>
      rename_i xs' ys' n'
      cases ys' with
      | nil => rw [editDist_nil_right] at ih ⊢; simpa using Nat.succ_le_succ ih
      | cons y ys'' =>
          rw [editDist_cons_cons]
          exact le_trans (min_le_left _ _) (by omega)
  | insert b h ih =>
      rename_i xs' ys' n'
      cases xs' with
      | nil => rw [editDist_nil_left] at ih ⊢; simpa using Nat.succ_le_succ ih
      | cons x xs'' =>
          rw [editDist_cons_cons]
          refine le_trans (min_le_right _ _) (le_trans (min_le_left _ _) (by omega))



theorem edits_snoc_copy {xs ys : List Char} {n : ℕ} (a : Char) (h : Edits xs ys n) :
    Edits (xs ++ [a]) (ys ++ [a]) n := by
  induction h with
  | nil => exact Edits.copy a Edits.nil
  | copy c h ih => exact Edits.copy c ih
  | subst c d h ih => exact Edits.subst c d ih
  | delete c h ih => exact Edits.delete c ih
  | insert d h ih => exact Edits.insert d ih

theorem edits_snoc_subst {xs ys : List Char} {n : ℕ} (a b : Char) (h : Edits xs ys n) :
    Edits (xs ++ [a]) (ys ++ [b]) (n + 1) := by
  induction h with
  | nil => exact Edits.subst a b Edits.nil
  | copy c h ih => exact Edits.copy c ih
  | subst c d h ih => exact Edits.subst c d ih
  | delete c h ih => exact Edits.delete c ih
  | insert d h ih => exact Edits.insert d ih

theorem edits_snoc_delete {xs ys : List Char} {n : ℕ} (a : Char) (h : Edits xs ys n) :
    Edits (xs ++ [a]) ys (n + 1) := by
  induction h with
  | nil => exact Edits.delete a Edits.nil
  | copy c h ih => exact Edits.copy c ih
  | subst c d h ih => exact Edits.subst c d ih
  | delete c h ih => exact Edits.delete c ih
  | insert d h ih => exact Edits.insert d ih

theorem edits_snoc_insert {xs ys : List Char} {n : ℕ} (b : Char) (h : Edits xs ys n) :
    Edits xs (ys ++ [b]) (n + 1) := by
  induction h with
  | nil => exact Edits.insert b Edits.nil
  | copy c h ih => exact Edits.copy c ih
  | subst c d h ih => exact Edits.subst c d ih
  | delete c h ih => exact Edits.delete c ih
  | insert d h ih => exact Edits.insert d ih

theorem edits_reverse {xs ys : List Char} {n : ℕ} (h : Edits xs ys n) :
    Edits xs.reverse ys.reverse n := by
  induction h with
  | nil => exact Edits.nil
  | copy c h ih => simpa using edits_snoc_copy c ih
  | subst c d h ih => simpa using edits_snoc_subst c d ih
  | delete c h ih => simpa using edits_snoc_delete c ih
  | insert d h ih => simpa using edits_snoc_insert d ih

theorem editDist_reverse (xs ys : List Char) :
    editDist xs.reverse ys.reverse = editDist xs ys := by
  apply le_antisymm
  · exact editDist_le_of_edits (edits_reverse (edits_editDist xs ys))
  · have := editDist_le_of_edits (edits_reverse (edits_editDist xs.reverse ys.reverse))
    simpa using this

theorem matrixEntry_eq (s1 s2 : List Char) (j i : ℕ)
    (hj : j ≤ s2.length) (hi : i ≤ s1.length) :
    matrixEntry s1 s2 j i = editDist ((s1.take i).reverse) ((s2.take j).reverse) := by
  induction j, i using matrixEntry.induct s1 s2 with
  | case1 i =>
      simp [matrixEntry, editDist_nil_right, Nat.min_eq_left hi]
  | case2 j =>
      simp [matrixEntry, editDist_nil_left, Nat.min_eq_left hj]
  | case3 j i ih1 ih2 ih3 =>
      have hi' : i < s1.length := by omega
      have hj' : j < s2.length := by omega
      have h1 : s1[i]? = some s1[i] := List.getElem?_eq_getElem hi'
      have h2 : s2[j]? = some s2[j] := List.getElem?_eq_getElem hj'
      rw [matrixEntry]
      rw [ih1 hj (by omega), ih2 (by omega) hi, ih3 (by omega) (by omega)]
      rw [List.take_succ, List.take_succ, h1, h2]
      simp only [Option.toList_some, List.reverse_append, List.reverse_singleton,
        List.singleton_append]
      rw [editDist_cons_cons]
      simp only [Option.some.injEq]

theorem levenshteinDistance_eq_editDist (s1 s2 : List Char) :
    levenshteinDistance s1 s2 = editDist s1 s2 := by
  unfold levenshteinDistance
  rw [matrixEntry_eq s1 s2 s2.length s1.length le_rfl le_rfl]
  simp [List.take_length, editDist_reverse]



/-- `calculateStringSimilarity` in closed form: the similarity is
`(L - editDist) / L` for `L` the longer length, and 1 for two empty
strings. -/
theorem calculateStringSimilarity_eq (s1 s2 : List Char) :
    calculateStringSimilarity s1 s2 =
      (if max s1.length s2.length = 0 then 1
       else (((max s1.length s2.length : ℕ) : ℚ) - (editDist s1 s2 : ℚ)) /
         ((max s1.length s2.length : ℕ) : ℚ)) := by
  unfold calculateStringSimilarity
  by_cases h : s1.length > s2.length
  · rw [Nat.max_eq_left (le_of_lt h)]
    simp only [h, if_true, levenshteinDistance_eq_editDist]
  · rw [Nat.max_eq_right (le_of_not_lt h)]
    simp only [h, if_false, levenshteinDistance_eq_editDist, editDist_comm s2 s1]

/-- Claim C9 (confirmed): the string similarity lies in [0, 1], is
symmetric, and equals 1 exactly for equal strings; and the DP
`levenshteinDistance` computes the standard edit distance — it equals
the textbook recursion `editDist`, it is achieved by an edit script,
and no script of insertions, deletions and substitutions does better. -/
theorem claim_C9 (s1 s2 : List Char) :
    0 ≤ calculateStringSimilarity s1 s2 ∧
    calculateStringSimilarity s1 s2 ≤ 1 ∧
    calculateStringSimilarity s1 s2 = calculateStringSimilarity s2 s1 ∧
    (calculateStringSimilarity s1 s2 = 1 ↔ s1 = s2) ∧
    levenshteinDistance s1 s2 = editDist s1 s2 ∧
    Edits s1 s2 (levenshteinDistance s1 s2) ∧
    (∀ n, Edits s1 s2 n → levenshteinDistance s1 s2 ≤ n) := by
  have hdle : editDist s1 s2 ≤ max s1.length s2.length := editDist_le_max s1 s2
  have hcast : ((editDist s1 s2 : ℚ)) ≤ ((max s1.length s2.length : ℕ) : ℚ) := by
    exact_mod_cast hdle
  refine ⟨?_, ?_, ?_, ?_, levenshteinDistance_eq_editDist s1 s2, ?_, ?_⟩
  · rw [calculateStringSimilarity_eq]
    split_ifs with h
    · norm_num
    · apply div_nonneg
      · linarith
      · positivity
  · rw [calculateStringSimilarity_eq]
    split_ifs with h
    · norm_num
    · have hpos : (0 : ℚ) < ((max s1.length s2.length : ℕ) : ℚ) := by
        exact_mod_cast Nat.pos_of_ne_zero h
      rw [div_le_one hpos]
      have : (0 : ℚ) ≤ (editDist s1 s2 : ℚ) := by positivity
      linarith
  · rw [calculateStringSimilarity_eq, calculateStringSimilarity_eq,
      Nat.max_comm s2.length s1.length, editDist_comm s2 s1]
  · rw [calculateStringSimilarity_eq]
    split_ifs with h
    · simp only [Nat.max_eq_zero_iff, List.length_eq_zero] at h
      simp [h.1, h.2]
    · have hpos : (0 : ℚ) < ((max s1.length s2.length : ℕ) : ℚ) := by
        exact_mod_cast Nat.pos_of_ne_zero h
      rw [div_eq_one_iff_eq (ne_of_gt hpos)]
      constructor
      · intro heq
        have h0 : (editDist s1 s2 : ℚ) = 0 := by linarith
        have h1 : editDist s1 s2 = 0 := by exact_mod_cast h0
        exact (editDist_eq_zero_iff s1 s2).mp h1
      · intro heq
        have h1 : editDist s1 s2 = 0 := (editDist_eq_zero_iff s1 s2).mpr heq
        rw [h1]
        norm_num
  · rw [levenshteinDistance_eq_editDist]
    exact edits_editDist s1 s2
  · intro n hn
    rw [levenshteinDistance_eq_editDist]
    exact editDist_le_of_edits hn

/- ===================== Remaining claim theorems ===================== -/

/-- The applied-corrections accumulator of the correction-application
fold collects exactly the folded list. -/
theorem foldl_apply_collect (l : List ProposedCorrection) (st : CorrectedInvoice)
    (acc : List ProposedCorrection) :
    (l.foldl (fun (p : CorrectedInvoice × List ProposedCorrection) c =>
      (applyOneCorrection p.1 c, p.2 ++ [c])) (st, acc)).2 = acc ++ l := by
  induction l generalizing st acc with
  | nil => simp
  | cons x xs ih => simp [ih]

/-- Claim C3 as amended (proved): `applyHighConfidenceCorrections`
applies exactly the proposals whose confidence is at least 0.85 — with
no protected-field exclusion: proposals on amount, vendorName and
invoiceNumber are applied like any other. -/
theorem claim_C3 (rr : String → String → String → Option String) (inv : Invoice)
    (vm : List VendorMemory) (cs : List ProposedCorrection) :
    (applyHighConfidenceCorrections rr inv vm cs).appliedCorrections =
      cs.filter (fun c => decide (c.confidence ≥ 17/20)) := by
  unfold applyHighConfidenceCorrections
  simp [foldl_apply_collect]

/-- Claim C3, counterexample: a confidence-0.9 proposal on the protected
field `amount` IS applied by `applyHighConfidenceCorrections` — it lands
in `appliedCorrections` and overwrites the invoice's amount — refuting
the claim that protected fields are never touched by this entry point. -/
theorem claim_C3_counterexample :
    c3Correction ∈
      (applyHighConfidenceCorrections noRegex c3Invoice [] [c3Correction]).appliedCorrections ∧
    (applyHighConfidenceCorrections noRegex c3Invoice [] [c3Correction]).amount = JsVal.num 42 ∧
    c3Invoice.amount = JsVal.num 100 := by
  refine ⟨?_, ?_, ?_⟩ <;>
    norm_num [applyHighConfidenceCorrections, normalizeInvoiceFields, applyOneCorrection,
      objAssign, jsNumber, c3Invoice, c3Correction, noRegex, List.filter] <;>
    simp

/-- A fold whose body ignores the element is the identity. -/
theorem foldl_id {α β : Type} (f : β → α → β) (hf : ∀ b a, f b a = b)
    (l : List α) (b : β) : l.foldl f b = b := by
  induction l generalizing b with
  | nil => rfl
  | cons x xs ih => rw [List.foldl_cons, hf]; exact ih b

/-- With no correction memory, `proposeCorrections` proposes nothing. -/
theorem proposeCorrections_nil (inv : Invoice) : proposeCorrections inv [] = [] := by
  unfold proposeCorrections
  apply foldl_id
  intro b a
  simp [ite_self]

/-- Claim C6 (confirmed): with no vendor patterns, no correction
patterns and no resolution outcomes, the overall confidence is the
fixed floor 0.1 (never 0), no corrections are proposed, and the
decision action is human-review. -/
theorem claim_C6 (inv : Invoice) (insights : MemoryInsights)
    (hv : insights.vendorPatterns = [])
    (hc : insights.suggestedCorrections = [])
    (hr : insights.historicalResolutions = [])
    (ho : insights.overallConfidence = calculateOverallConfidence
      insights.vendorPatterns insights.suggestedCorrections insights.historicalResolutions) :
    insights.overallConfidence = 1/10 ∧
    (makeProcessingDecision defaultThresholds inv insights
      (proposeCorrections inv insights.suggestedCorrections)).action =
        DecisionType.humanReview := by
  have hconf : insights.overallConfidence = 1/10 := by
    rw [ho, hv, hc, hr]
    norm_num [calculateOverallConfidence]
  refine ⟨hconf, ?_⟩
  rw [hc, proposeCorrections_nil]
  have holow : SafetyFlag.overallLowConfidence ∈
      applySafetyConstraints defaultThresholds [] insights.overallConfidence := by
    unfold applySafetyConstraints
    rw [hconf]
    norm_num [defaultThresholds]
  have hany : ((applySafetyConstraints defaultThresholds []
      insights.overallConfidence).any (fun c => decide (c ∈ blockingConstraints)) = true) := by
    rw [any_blocking_iff]; tauto
  simp [makeProcessingDecision, determineAction, hany]

/-- Claim C7 (confirmed): the correction-feedback update adds 0.1 capped
at 1.0 and bumps the approval counter on approval, subtracts 0.15
floored at 0.0 and bumps the rejection counter on rejection, the
store-level update applies exactly this row function to the matching
row, and three consecutive approvals from confidence 0.5 yield 0.8. -/
theorem claim_C7 :
    (∀ m : CorrectionMemory,
      (updateCorrectionRow true m).confidenceScore = min 1 (m.confidenceScore + 1/10) ∧
      (updateCorrectionRow true m).approvalCount = m.approvalCount + 1 ∧
      (updateCorrectionRow true m).rejectionCount = m.rejectionCount ∧
      (updateCorrectionRow false m).confidenceScore = max 0 (m.confidenceScore - 3/20) ∧
      (updateCorrectionRow false m).rejectionCount = m.rejectionCount + 1 ∧
      (updateCorrectionRow false m).approvalCount = m.approvalCount) ∧
    (∀ (now : ℤ) (id : String) (approved : Bool) (st : StoreState),
      (updateCorrectionMemoryFeedback now id approved st).correctionMemoryRows =
        st.correctionMemoryRows.map (fun m =>
          if m.id = id then updateCorrectionRow approved m else m)) ∧
    (∀ m : CorrectionMemory, m.confidenceScore = 1/2 →
      (updateCorrectionRow true (updateCorrectionRow true
        (updateCorrectionRow true m))).confidenceScore = 4/5) := by
  refine ⟨?_, ?_, ?_⟩
  · intro m
    refine ⟨?_, ?_, ?_, ?_, ?_, ?_⟩ <;> simp [updateCorrectionRow]
  · intro now id approved st
    rfl
  · intro m h
    norm_num [updateCorrectionRow, h, min_def]

/-- `validateConfidenceScore` clamps into [0, 1]. -/
theorem validateConfidenceScore_bounds (x : ℚ) :
    0 ≤ validateConfidenceScore x ∧ validateConfidenceScore x ≤ 1 := by
  unfold validateConfidenceScore mathMax mathMin
  split_ifs <;> constructor <;> linarith

/-- Claim C10 (confirmed): the published memory-insights block has
`historicalAccuracy` in [0, 1] (the rational model has no NaN; the
source's `0/0` is modelled by `jsDiv` and coerced to 0 exactly as
`|| 0` does), and an empty historical-resolution list always yields
accuracy 0 even when other patterns exist. -/
theorem claim_C10 (insights : MemoryInsights) (applied : List ProposedCorrection) :
    0 ≤ (calculateMemoryInsights insights applied).historicalAccuracy ∧
    (calculateMemoryInsights insights applied).historicalAccuracy ≤ 1 ∧
    (insights.historicalResolutions = [] →
      (calculateMemoryInsights insights applied).historicalAccuracy = 0) := by
  refine ⟨(validateConfidenceScore_bounds _).1, (validateConfidenceScore_bounds _).2, ?_⟩
  intro h
  simp only [calculateMemoryInsights, h]
  norm_num [jsDiv, validateConfidenceScore, mathMax, mathMin]

/-- Claim C8 (confirmed): whenever the built result fails output
validation, `createInvoiceProcessingResult` returns the standard
error-shaped result — human-review, confidence 0.0, a non-empty
reasoning string, no corrections, zeroed memory-insight counters and
exactly one audit entry; the function is total, so no error reaches the
caller. -/
theorem claim_C8 (now : ℤ) (invoice : Invoice) (decision : ProcessingDecision)
    (insights : MemoryInsights) (auditLogs : List AuditLog)
    (h : (validateOutput (buildRawResult now invoice decision insights auditLogs)).isValid
      = false) :
    (createInvoiceProcessingResult now invoice decision insights auditLogs).decision =
      DecisionType.humanReview ∧
    (createInvoiceProcessingResult now invoice decision insights auditLogs).confidenceScore = 0 ∧
    (createInvoiceProcessingResult now invoice decision insights auditLogs).reasoning ≠ "" ∧
    (createInvoiceProcessingResult now invoice decision insights auditLogs).appliedCorrections
      = [] ∧
    (createInvoiceProcessingResult now invoice decision insights auditLogs).memoryInsights =
      { vendorPatternsUsed := 0, correctionsApplied := 0, historicalAccuracy := 0 } ∧
    (createInvoiceProcessingResult now invoice decision insights auditLogs).auditTrail.length
      = 1 := by
  unfold createInvoiceProcessingResult
  rw [if_neg (by simp [h])]
  refine ⟨rfl, rfl, ?_, rfl, rfl, rfl⟩
  unfold createErrorOutput
  simp only [ne_eq]
  intro hcontra
  have h2 := congrArg String.length hcontra
  simp [String.length_append] at h2
  exact absurd h2.2 (by decide)

/-- Claim C4 as amended (proved): once `reinforceMemory` has completed
for an invoice id, any later call with the same id is a complete no-op:
the returned state — stored pattern rows, audit log and learning
events — is identical to the input state (in particular, NO audit entry
documenting the skip is produced; the source only emits a console
warning). -/
theorem claim_C4 (now now2 : ℤ) (fb fb2 : LearningFeedback) (ls ls1 : LearningState)
    (h : reinforceMemory now fb ls = Except.ok ls1)
    (hid : fb2.invoiceId = fb.invoiceId) :
    reinforceMemory now2 fb2 ls1 = Except.ok ls1 := by
  have hmem : ls1.processedInvoices.contains fb.invoiceId = true := by
    unfold reinforceMemory at h
    by_cases hdup : ls.processedInvoices.contains fb.invoiceId
    · rw [if_pos hdup] at h
      cases h
      exact hdup
    · rw [if_neg hdup] at h
      split at h
      · injection h with h2
        subst h2
        simp
      · split at h
        · simp at h
        · injection h with h2
          subst h2
          simp
  unfold reinforceMemory
  rw [hid, if_pos hmem]

/-- Claim C4, counterexample: after a completed first call for
"inv_001", the second call returns the state unchanged and the audit
log still has zero entries — no audit entry documenting the skip is
produced, refuting that part of the claim. -/
theorem claim_C4_counterexample :
    reinforceMemory 0 c4Feedback c4State0 = Except.ok c4State1 ∧
    reinforceMemory 1 c4Feedback c4State1 = Except.ok c4State1 ∧
    c4State1.store.auditLogs.length = 0 := by
  refine ⟨rfl, rfl, rfl⟩

/-- Witness for claim C4 at a concrete input: the second call for the
already-processed invoice "inv_001" is a no-op. -/
theorem claim_C4_witness :
    reinforceMemory 1 c4Feedback c4State1 = Except.ok c4State1 :=
  claim_C4 0 1 c4Feedback c4Feedback c4State0 c4State1 rfl rfl

/-- Witness for claim C5 at a concrete input: a 0.5-confidence `amount`
proposal forces human-review with no attached corrections. -/
theorem claim_C5_witness :
    (makeProcessingDecision defaultThresholds sampleInvoice sampleInsights
      [c5Correction]).action = DecisionType.humanReview ∧
    (makeProcessingDecision defaultThresholds sampleInvoice sampleInsights
      [c5Correction]).appliedCorrections = [] :=
  claim_C5 sampleInvoice sampleInsights [c5Correction]
    ⟨c5Correction, List.mem_singleton_self _,
     by norm_num [c5Correction, protectedFields],
     by norm_num [c5Correction]⟩

/-- Witness for claim C6 at a concrete input: zero matching memory
yields confidence 0.1 and human-review. -/
theorem claim_C6_witness :
    c6Insights.overallConfidence = 1/10 ∧
    (makeProcessingDecision defaultThresholds sampleInvoice c6Insights
      (proposeCorrections sampleInvoice c6Insights.suggestedCorrections)).action =
        DecisionType.humanReview :=
  claim_C6 sampleInvoice c6Insights rfl rfl rfl rfl

/-- Witness for claim C8 at a concrete input: an invoice with an empty
id fails validation and produces the error-shaped result. -/
theorem claim_C8_witness :
    (createInvoiceProcessingResult 0 c8Invoice c8Decision c8Insights []).decision =
      DecisionType.humanReview ∧
    (createInvoiceProcessingResult 0 c8Invoice c8Decision c8Insights []).confidenceScore = 0 ∧
    (createInvoiceProcessingResult 0 c8Invoice c8Decision c8Insights []).reasoning ≠ "" ∧
    (createInvoiceProcessingResult 0 c8Invoice c8Decision c8Insights []).appliedCorrections
      = [] ∧
    (createInvoiceProcessingResult 0 c8Invoice c8Decision c8Insights []).memoryInsights =
      { vendorPatternsUsed := 0, correctionsApplied := 0, historicalAccuracy := 0 } ∧
    (createInvoiceProcessingResult 0 c8Invoice c8Decision c8Insights []).auditTrail.length
      = 1 :=
  claim_C8 0 c8Invoice c8Decision c8Insights [] rfl

end InvoiceMemory
